import Mathlib

/-!
Shallow embedding of the legate.core test-stage resource-sharding scheduler:
the `Shard`/`StageSpec` data model and `adjust_workers` resolver from
`legate/tester/stages/util.py`, the Linux GPU and OMP planners from
`src/python/legate/tester/stages/_linux/{gpu,omp}.py`, the macOS OMP planner
from `legate/tester/stages/_osx/omp.py`, and the constant `SMALL_SYSMEM` from
`src/python/legate/tester/defaults.py`.

Python integers are modelled as `Nat` (all quantities involved are
non-negative) except the optional user-requested worker count, which may be
negative on the command line and is modelled as `Option Int`.  Python floats
(the bloat factor and the derived memory quotients) are modelled exactly as
rationals; `x // y` on non-negative operands is the rational floor, and a zero
divisor is modelled as an explicit `zeroDivision` error, mirroring Python's
`ZeroDivisionError`.  Warnings (`warnings.warn`) are modelled as a boolean
flag in the successful result, and exceptions as `Except` errors carrying the
message data the source interpolates.
-/

namespace LegateSharding

/-- `RankShard`: resource ids (core ids or GPU ids) for one rank
(`tuple[int, ...]` in `util.py`). -/
abbrev RankShard := List Nat

/-- `Shard` from `util.py`: a list of rank shards, one per rank. -/
structure Shard where
  ranks : List RankShard
deriving DecidableEq, Repr

/-- `StageSpec` from `util.py`: worker count plus shard list. -/
structure StageSpec where
  workers : Nat
  shards : List Shard
deriving DecidableEq, Repr

/-- The `--cpu-pin` mode (`"strict"`, `"none"`, or the default `"partial"`). -/
inductive CpuPin where
  | strict
  | nopin
  | part
deriving DecidableEq, Repr

/-- The configuration fields the planners read (flattening the source's
`config.core`, `config.memory`, `config.multi_node`, `config.execution`
sub-objects). -/
structure Config where
  cpus : Nat
  gpus : Nat
  omps : Nat
  ompthreads : Nat
  utility : Nat
  sysmem : Nat
  numamem : Nat
  fbmem : Nat
  ranks_per_node : Nat
  cpu_pin : CpuPin
  bloat_factor : ℚ
  requested_workers : Option Int
deriving DecidableEq, Repr

/-- One GPU of the inventory: an id and a total memory capacity in bytes. -/
structure GpuInfo where
  id : Nat
  total : Nat
deriving DecidableEq, Repr

/-- The hardware inventory (`TestSystem`): CPU groups (each a list of core
ids), GPUs, and total system memory in MB. -/
structure TestSystem where
  cpus : List (List Nat)
  gpus : List GpuInfo
  memory : Nat
deriving DecidableEq, Repr

/-- `SMALL_SYSMEM` from `defaults.py`: sysmem value (MB) for non-CPU stages. -/
def SMALL_SYSMEM : Nat := 300

/-- The errors planning can raise, mirroring the source's exceptions:
`ValueError` for a negative request, `RuntimeError` for a zero request, a
request exceeding the computed count, a zero final count (optionally with a
detail string), the strict-pinning not-enough-cores failure, and Python's
`ZeroDivisionError` / `min()`-of-empty-sequence `ValueError`. -/
inductive PlanErr where
  | invalidNeg
  | invalidZero
  | invalidExceeds (requested : Int) (computed : Nat)
  | zeroWorkers (detail : Option String)
  | notEnoughCores (msg : String)
  | zeroDivision
  | emptyGpuList
deriving DecidableEq, Repr

/-- The message attached to each error, mirroring the source's f-strings. -/
def PlanErr.message : PlanErr → String
  | .invalidNeg => "requested workers must be non-negative"
  | .invalidZero => "requested workers must not be zero"
  | .invalidExceeds r c =>
      s!"Requested workers ({r}) is greater than computed workers ({c})"
  | .zeroWorkers none => "Current configuration results in zero workers"
  | .zeroWorkers (some d) =>
      s!"Current configuration results in zero workers [details: {d}]"
  | .notEnoughCores m => m
  | .zeroDivision => "division by zero"
  | .emptyGpuList => "min() arg is an empty sequence"

/-- The spec's invalid-configuration error class (§7): bad explicit worker
requests. -/
def PlanErr.isInvalidConfig : PlanErr → Bool
  | .invalidNeg => true
  | .invalidZero => true
  | .invalidExceeds _ _ => true
  | _ => false

/-- The spec's resource-exhausted error class (§7): the computation yields
zero usable workers. -/
def PlanErr.isResourceExhausted : PlanErr → Bool
  | .zeroWorkers _ => true
  | .notEnoughCores _ => true
  | _ => false

instance {ε α : Type} [DecidableEq ε] [DecidableEq α] :
    DecidableEq (Except ε α) := fun a b =>
  match a, b with
  | .ok x, .ok y =>
      if h : x = y then .isTrue (by rw [h]) else .isFalse (by simp [h])
  | .error x, .error y =>
      if h : x = y then .isTrue (by rw [h]) else .isFalse (by simp [h])
  | .ok _, .error _ => .isFalse (by simp)
  | .error _, .ok _ => .isFalse (by simp)

/-- `adjust_workers` from `util.py`: reconcile a computed worker count with an
optional user-requested count.  Checks, in source order: a negative request is
a `ValueError`; a zero request is a `RuntimeError`; a request exceeding the
computed count is a `RuntimeError`; a valid request overrides the computed
count; a final count of zero is a `RuntimeError` carrying the detail string. -/
def adjust_workers (workers : Nat) (requested_workers : Option Int)
    (detail : Option String) : Except PlanErr Nat :=
  if requested_workers.any (fun r => r < 0) then .error .invalidNeg
  else if requested_workers = some 0 then .error .invalidZero
  else
    match requested_workers with
    | some r =>
        if (workers : Int) < r then .error (.invalidExceeds r workers)
        else if r.toNat = 0 then .error (.zeroWorkers detail)
        else .ok r.toNat
    | none =>
        if workers = 0 then .error (.zeroWorkers detail) else .ok workers

/-- Python `int(a // b)` for the non-negative rationals the planners divide;
the planners guard the `b = 0` case with an explicit `zeroDivision` error. -/
def pyFloorNat (q : ℚ) : Nat := q.floor.toNat

/-- Insert a value into an already-sorted list of ids. -/
def insertSorted (x : Nat) : List Nat → List Nat
  | [] => [x]
  | y :: ys => if x ≤ y then x :: y :: ys else y :: insertSorted x ys

/-- Python `sorted` on a list of ids (insertion sort; any comparison sort of
natural numbers produces the same, uniquely determined, ascending list). -/
def pySorted (l : List Nat) : List Nat := l.foldr insertSorted []

theorem mem_insertSorted (a x : Nat) (l : List Nat) :
    a ∈ insertSorted x l ↔ a = x ∨ a ∈ l := by
  induction l with
  | nil => simp [insertSorted]
  | cons y ys ih =>
      unfold insertSorted
      split <;> simp [ih] <;> tauto

theorem mem_pySorted (a : Nat) (l : List Nat) :
    a ∈ pySorted l ↔ a ∈ l := by
  induction l with
  | nil => simp [pySorted]
  | cons y ys ih =>
      unfold pySorted at ih ⊢
      simp [mem_insertSorted, ih]

/-- Python `min(gpu.total for gpu in gpus)` over a non-empty list. -/
def minTotal (g : GpuInfo) (gs : List GpuInfo) : Nat :=
  gs.foldl (fun m x => min m x.total) g.total

/-! ### Named intermediate quantities of the planners (the source's locals) -/

/-- `degree = N // (config.core.gpus * ranks_per_node)` (`gpu.py` line 82). -/
def gpuDegree (config : Config) (system : TestSystem) : Nat :=
  system.gpus.length / (config.gpus * config.ranks_per_node)

/-- `oversub_factor = int(fbsize // (fbmem * bloat_factor))` with
`fbsize = min(gpu.total for gpu in system.gpus) / (1 << 20)` (`gpu.py` lines
86-87), for an inventory whose GPU list is `g :: gs`. -/
def gpuOversub (config : Config) (g : GpuInfo) (gs : List GpuInfo) : Nat :=
  pyFloorNat ((minTotal g gs : ℚ) / (2 ^ 20) /
    ((config.fbmem : ℚ) * config.bloat_factor))

/-- `mem_workers = system.memory // (SMALL_SYSMEM * bloat_factor)` (`gpu.py`
line 91). -/
def gpuMemWorkers (config : Config) (system : TestSystem) : Nat :=
  pyFloorNat ((system.memory : ℚ) / ((SMALL_SYSMEM : ℚ) * config.bloat_factor))

/-- The GPU planner's base shard list (`gpu.py` lines 100-110): `degree`
entries, each giving rank `j` the contiguous GPU-id range
`[(j + i*rpn)*gpus, (j + i*rpn + 1)*gpus)`. -/
def gpuBaseShards (config : Config) (system : TestSystem) : List Shard :=
  (List.range (gpuDegree config system)).map (fun i =>
    ⟨(List.range config.ranks_per_node).map (fun j =>
      List.range' ((j + i * config.ranks_per_node) * config.gpus)
        config.gpus)⟩)

/-- The GPU planner's diagnostic detail string (`gpu.py` line 95). -/
def gpuDetail (config : Config) (system : TestSystem) (g : GpuInfo)
    (gs : List GpuInfo) : String :=
  s!"fbsize={(minTotal g gs : ℚ) / (2 ^ 20)} oversub_factor={gpuOversub config g gs} gpu_workers={gpuDegree config system * gpuOversub config g gs} mem_workers={gpuMemWorkers config system}"

/-- `procs = omps*ompthreads + utility + int(cpu_pin == "strict")`
(`omp.py` lines 87-91). -/
def ompProcs (config : Config) : Nat :=
  config.omps * config.ompthreads + config.utility
    + (if config.cpu_pin = .strict then 1 else 0)

/-- `omp_workers = len(cpus) // (procs * ranks_per_node)` (`omp.py` line 93). -/
def ompWorkersRaw (config : Config) (system : TestSystem) : Nat :=
  system.cpus.length / (ompProcs config * config.ranks_per_node)

/-- `mem_per_test = (SMALL_SYSMEM + omps * numamem) * bloat_factor`
(`omp.py` line 95). -/
def ompMemPerTest (config : Config) : ℚ :=
  ((SMALL_SYSMEM : ℚ) + config.omps * config.numamem) * config.bloat_factor

/-- `mem_workers = system.memory // mem_per_test` (`omp.py` line 97). -/
def ompMemWorkers (config : Config) (system : TestSystem) : Nat :=
  pyFloorNat ((system.memory : ℚ) / ompMemPerTest config)

/-- The strict-pinning failure / oversubscription warning message of the OMP
planner (`omp.py` lines 101-110) and of the spec-modelled CPU planner. -/
def notEnoughMsg (n rpn procs : Nat) : String :=
  s!"{n} detected core(s) not enough for {rpn} rank(s) per node, each reserving {procs} core(s) with strict CPU pinning"

/-- The OMP planner's diagnostic detail string (`omp.py` line 117). -/
def ompDetail (config : Config) (system : TestSystem) : String :=
  s!"omp_workers={ompWorkersRaw config system} mem_workers={ompMemWorkers config system}"

/-- The worker-indexed shard list built by the OMP planner (`omp.py` lines
122-132) and by the spec-modelled CPU planner (§4.2 step 5): worker `i`,
rank `j` receives the core ids of the contiguous CPU-group block
`[(j + i*rpn)*procs, (j + i*rpn + 1)*procs)`, sorted ascending. -/
def groupShards (cpus : List (List Nat)) (procs rpn workers : Nat) :
    List Shard :=
  (List.range workers).map (fun i =>
    ⟨(List.range rpn).map (fun j =>
      pySorted ((List.range' ((j + i * rpn) * procs) procs).map
        (fun k => cpus.getD k [])).flatten)⟩)

/-- `procs = cpus + utility + int(cpu_pin == "strict")` (spec §4.2 step 1). -/
def cpuProcs (config : Config) : Nat :=
  config.cpus + config.utility + (if config.cpu_pin = .strict then 1 else 0)

/-- `workers_raw = floor(len(cpu_groups) / (procs_per_rank * ranks_per_node))`
(spec §4.2 step 2). -/
def cpuWorkersRaw (config : Config) (system : TestSystem) : Nat :=
  system.cpus.length / (cpuProcs config * config.ranks_per_node)

/-! ### The planners -/

/-- `GPU.compute_spec` from `_linux/gpu.py` (lines 79-114).  The returned
boolean records whether a warning was emitted (the GPU planner never warns). -/
def gpuComputeSpec (config : Config) (system : TestSystem) :
    Except PlanErr (StageSpec × Bool) :=
  if config.gpus * config.ranks_per_node = 0 then .error .zeroDivision else
  match system.gpus with
  | [] => .error .emptyGpuList
  | g :: gs =>
    if (config.fbmem : ℚ) * config.bloat_factor = 0 then .error .zeroDivision
    else if (SMALL_SYSMEM : ℚ) * config.bloat_factor = 0 then
      .error .zeroDivision
    else
      match adjust_workers
          (min (gpuDegree config system * gpuOversub config g gs)
            (gpuMemWorkers config system))
          config.requested_workers (some (gpuDetail config system g gs)) with
      | .error e => .error e
      | .ok workers =>
          .ok (⟨workers,
            (List.replicate
              (if config.ranks_per_node = 1 then workers
               else gpuOversub config g gs)
              (gpuBaseShards config system)).flatten⟩, false)

/-- `OMP.compute_spec` from `_linux/omp.py` (lines 80-134).  The returned
boolean records whether the oversubscription warning was emitted. -/
def ompComputeSpec (config : Config) (system : TestSystem) :
    Except PlanErr (StageSpec × Bool) :=
  if ompProcs config * config.ranks_per_node = 0 then .error .zeroDivision
  else if ompMemPerTest config = 0 then .error .zeroDivision
  else if ompWorkersRaw config system = 0 ∧ config.cpu_pin = .strict then
    .error (.notEnoughCores (notEnoughMsg system.cpus.length
      config.ranks_per_node (ompProcs config)))
  else if ompWorkersRaw config system = 0 ∧ 0 < ompMemWorkers config system
  then
    .ok (⟨1, [⟨[pySorted system.cpus.flatten]⟩]⟩, true)
  else
    match adjust_workers
        (min (ompWorkersRaw config system) (ompMemWorkers config system))
        config.requested_workers (some (ompDetail config system)) with
    | .error e => .error e
    | .ok workers =>
        .ok (⟨workers, groupShards system.cpus (ompProcs config)
          config.ranks_per_node workers⟩, false)

/-- Modelled from the spec: the Linux CPU planner's `CPU.compute_spec`, whose
source file is not available here (only its unit tests are).  Follows §4.2 of
the spec: `procs_per_rank = cpus + utility + (1 if strict else 0)`;
`workers_raw = floor(len(cpu_groups) / (procs_per_rank * ranks_per_node))`;
on zero raw workers, strict pinning fails with a resource-exhausted error and
otherwise a warning is emitted and a single worker over all core ids (sorted
ascending) is substituted; otherwise the count is resolved via
`adjust_workers` and worker `i`, rank `j` receives the core ids of the
contiguous CPU-group block `[(j + i*rpn)*procs, (j + i*rpn + 1)*procs)`,
sorted ascending within the rank. -/
def cpuComputeSpec (config : Config) (system : TestSystem) :
    Except PlanErr (StageSpec × Bool) :=
  if cpuProcs config * config.ranks_per_node = 0 then .error .zeroDivision
  else if cpuWorkersRaw config system = 0 ∧ config.cpu_pin = .strict then
    .error (.notEnoughCores (notEnoughMsg system.cpus.length
      config.ranks_per_node (cpuProcs config)))
  else if cpuWorkersRaw config system = 0 then
    .ok (⟨1, [⟨[pySorted system.cpus.flatten]⟩]⟩, true)
  else
    match adjust_workers (cpuWorkersRaw config system)
        config.requested_workers none with
    | .error e => .error e
    | .ok workers =>
        .ok (⟨workers, groupShards system.cpus (cpuProcs config)
          config.ranks_per_node workers⟩, false)

/-- `OMP.compute_spec` from `_osx/omp.py` (lines 60-69): resolve
`len(cpus) // (omps*ompthreads + utility)` against the requested count and
return one placeholder shard `[(i,)]` per worker index. -/
def osxOmpComputeSpec (config : Config) (system : TestSystem) :
    Except PlanErr (StageSpec × Bool) :=
  if config.omps * config.ompthreads + config.utility = 0 then
    .error .zeroDivision
  else
    match adjust_workers
        (system.cpus.length / (config.omps * config.ompthreads
          + config.utility))
        config.requested_workers none with
    | .error e => .error e
    | .ok workers =>
        .ok (⟨workers, (List.range workers).map (fun i => ⟨[[i]]⟩)⟩, false)

/-! ### Lemmas about the worker-count resolver -/

theorem adjust_none (w : Nat) (d : Option String) :
    adjust_workers w none d =
      if w = 0 then .error (.zeroWorkers d) else .ok w := rfl

theorem adjust_some (w : Nat) (rv : Int) (d : Option String) :
    adjust_workers w (some rv) d =
      if rv < 0 then .error .invalidNeg
      else if rv = 0 then .error .invalidZero
      else if (w : Int) < rv then .error (.invalidExceeds rv w)
      else .ok rv.toNat := by
  unfold adjust_workers
  simp only [Option.any_some, decide_eq_true_eq, Option.some.injEq]
  split_ifs with h1 h2 h3 h4 <;> try rfl
  · omega

theorem adjust_ok_of_none (w v : Nat) (d : Option String)
    (h : adjust_workers w none d = .ok v) : v = w := by
  rw [adjust_none] at h
  split at h <;> simp_all

theorem adjust_ok_le (w v : Nat) (r : Option Int) (d : Option String)
    (h : adjust_workers w r d = .ok v) : 0 < v ∧ v ≤ w := by
  cases r with
  | none => rw [adjust_none] at h; split at h <;> simp_all; omega
  | some rv =>
      rw [adjust_some] at h
      split_ifs at h with h1 h2 h3 <;> simp_all <;> omega

theorem adjust_ok_detail (w v : Nat) (r : Option Int) (d d' : Option String)
    (h : adjust_workers w r d = .ok v) : adjust_workers w r d' = .ok v := by
  cases r with
  | none => rw [adjust_none] at h ⊢; split at h <;> simp_all
  | some rv =>
      rw [adjust_some] at h ⊢
      split_ifs at h ⊢ <;> simp_all

/-- C2: `adjust_workers` raises an invalid-configuration error exactly when
the request is negative, zero, or exceeds the computed count; raises a
resource-exhausted error exactly when no request is given and the computed
count is zero, with the detail string embedded in the message when supplied;
otherwise returns the request when given and the computed count unchanged
when not.  In particular `resolve(5, None) = 5`, `resolve(5, 3) = 3`,
`resolve(5, 6)`, `resolve(5, 0)` fail as invalid-configuration and
`resolve(0, None)` fails as resource-exhausted. -/
theorem C2_adjust_workers_contract (w : Nat) (r : Option Int) (d : Option String) :
    ((∃ e, adjust_workers w r d = .error e ∧ e.isInvalidConfig) ↔
      (∃ rv, r = some rv ∧ (rv < 0 ∨ rv = 0 ∨ (w : Int) < rv))) ∧
    ((∃ e, adjust_workers w r d = .error e ∧ e.isResourceExhausted) ↔
      (r = none ∧ w = 0)) ∧
    (∀ dd, d = some dd →
      ∃ a b, (PlanErr.zeroWorkers d).message = a ++ dd ++ b) ∧
    (∀ rv, r = some rv → 0 < rv → rv ≤ (w : Int) →
      adjust_workers w r d = .ok rv.toNat) ∧
    (r = none → w ≠ 0 → adjust_workers w r d = .ok w) ∧
    adjust_workers 5 none none = .ok 5 ∧
    adjust_workers 5 (some 3) none = .ok 3 ∧
    adjust_workers 5 (some 6) none = .error (.invalidExceeds 6 5) ∧
    adjust_workers 5 (some 0) none = .error .invalidZero ∧
    adjust_workers 0 none none = .error (.zeroWorkers none) := by
  refine ⟨?_, ?_, ?_, ?_, ?_, by decide, by decide, by decide, by decide, by decide⟩
  · constructor
    · rintro ⟨e, he, hinv⟩
      cases r with
      | none =>
          rw [adjust_none] at he
          split at he <;> simp_all <;> subst he <;> simp_all [PlanErr.isInvalidConfig]
      | some rv =>
          rw [adjust_some] at he
          refine ⟨rv, rfl, ?_⟩
          split_ifs at he <;> simp_all <;> subst he <;> simp_all [PlanErr.isInvalidConfig]
    · rintro ⟨rv, rfl, hcase⟩
      rw [adjust_some]
      rcases hcase with h | h | h
      · exact ⟨.invalidNeg, by simp [h], rfl⟩
      · exact ⟨.invalidZero, by simp [h], rfl⟩
      · refine ⟨.invalidExceeds rv w, ?_, rfl⟩
        split_ifs <;> first | rfl | omega
  · constructor
    · rintro ⟨e, he, hres⟩
      cases r with
      | none =>
          rw [adjust_none] at he
          split at he <;> simp_all
      | some rv =>
          rw [adjust_some] at he
          split_ifs at he <;> simp_all <;> subst he <;> simp_all [PlanErr.isResourceExhausted]
    · rintro ⟨rfl, rfl⟩
      exact ⟨.zeroWorkers d, by rw [adjust_none]; rfl, rfl⟩
  · rintro dd rfl
    exact ⟨"Current configuration results in zero workers [details: ", "]", rfl⟩
  · rintro rv rfl h1 h2
    rw [adjust_some]
    split_ifs <;> first | rfl | omega
  · rintro rfl hw
    rw [adjust_none]
    simp [hw]

/-- Witness for C2 at the concrete input `(computed, requested) = (5, None)`. -/
theorem C2_adjust_workers_contract_witness :
    adjust_workers 5 none none = .ok 5 :=
  (C2_adjust_workers_contract 5 none none).2.2.2.2.1 rfl (by decide)

/-! ### Inversion lemmas: what a successful planning result looks like -/

theorem ompComputeSpec_ok (config : Config) (system : TestSystem)
    (spec : StageSpec) (warn : Bool)
    (h : ompComputeSpec config system = .ok (spec, warn)) :
    (ompWorkersRaw config system = 0 ∧ config.cpu_pin ≠ .strict ∧
      0 < ompMemWorkers config system ∧
      spec = ⟨1, [⟨[pySorted system.cpus.flatten]⟩]⟩ ∧ warn = true) ∨
    (∃ d, adjust_workers
        (min (ompWorkersRaw config system) (ompMemWorkers config system))
        config.requested_workers d = .ok spec.workers ∧
      spec.shards = groupShards system.cpus (ompProcs config)
        config.ranks_per_node spec.workers ∧ warn = false) := by
  unfold ompComputeSpec at h
  split at h
  · exact absurd h (by simp)
  split at h
  · exact absurd h (by simp)
  split at h
  · exact absurd h (by simp)
  split at h
  · rename_i h3 hc
    have hinj := h
    simp only [Except.ok.injEq, Prod.mk.injEq] at hinj
    exact .inl ⟨hc.1, fun hst => h3 ⟨hc.1, hst⟩, hc.2,
      hinj.1.symm, hinj.2.symm⟩
  · split at h
    · exact absurd h (by simp)
    · rename_i w hadj
      have hinj := h
      simp only [Except.ok.injEq, Prod.mk.injEq] at hinj
      refine .inr ⟨some (ompDetail config system), ?_, ?_, hinj.2.symm⟩
      · rw [← hinj.1]
        exact hadj
      · rw [← hinj.1]

theorem cpuComputeSpec_ok (config : Config) (system : TestSystem)
    (spec : StageSpec) (warn : Bool)
    (h : cpuComputeSpec config system = .ok (spec, warn)) :
    (cpuWorkersRaw config system = 0 ∧ config.cpu_pin ≠ .strict ∧
      spec = ⟨1, [⟨[pySorted system.cpus.flatten]⟩]⟩ ∧ warn = true) ∨
    (adjust_workers (cpuWorkersRaw config system)
        config.requested_workers none = .ok spec.workers ∧
      spec.shards = groupShards system.cpus (cpuProcs config)
        config.ranks_per_node spec.workers ∧ warn = false) := by
  unfold cpuComputeSpec at h
  split at h
  · exact absurd h (by simp)
  split at h
  · exact absurd h (by simp)
  split at h
  · rename_i h2 hz
    have hinj := h
    simp only [Except.ok.injEq, Prod.mk.injEq] at hinj
    exact .inl ⟨hz, fun hst => h2 ⟨hz, hst⟩, hinj.1.symm, hinj.2.symm⟩
  · split at h
    · exact absurd h (by simp)
    · rename_i w hadj
      have hinj := h
      simp only [Except.ok.injEq, Prod.mk.injEq] at hinj
      refine .inr ⟨?_, ?_, hinj.2.symm⟩
      · rw [← hinj.1]
        exact hadj
      · rw [← hinj.1]

theorem gpuComputeSpec_ok (config : Config) (system : TestSystem)
    (spec : StageSpec) (warn : Bool)
    (h : gpuComputeSpec config system = .ok (spec, warn)) :
    ∃ g gs, system.gpus = g :: gs ∧
      adjust_workers
        (min (gpuDegree config system * gpuOversub config g gs)
          (gpuMemWorkers config system))
        config.requested_workers (some (gpuDetail config system g gs))
        = .ok spec.workers ∧
      spec.shards = (List.replicate
        (if config.ranks_per_node = 1 then spec.workers
         else gpuOversub config g gs)
        (gpuBaseShards config system)).flatten ∧ warn = false := by
  unfold gpuComputeSpec at h
  split at h
  · exact absurd h (by simp)
  split at h
  · exact absurd h (by simp)
  · rename_i g gs hgs
    split at h
    · exact absurd h (by simp)
    split at h
    · exact absurd h (by simp)
    split at h
    · exact absurd h (by simp)
    · rename_i w hadj
      have hinj := h
      simp only [Except.ok.injEq, Prod.mk.injEq] at hinj
      refine ⟨g, gs, hgs, ?_, ?_, hinj.2.symm⟩
      · rw [← hinj.1]
        exact hadj
      · rw [← hinj.1]

theorem osxOmpComputeSpec_ok (config : Config) (system : TestSystem)
    (spec : StageSpec) (warn : Bool)
    (h : osxOmpComputeSpec config system = .ok (spec, warn)) :
    adjust_workers
      (system.cpus.length / (config.omps * config.ompthreads
        + config.utility)) config.requested_workers none = .ok spec.workers ∧
    spec.shards = (List.range spec.workers).map (fun i => ⟨[[i]]⟩) ∧
    warn = false := by
  unfold osxOmpComputeSpec at h
  split at h
  · exact absurd h (by simp)
  · split at h
    · exact absurd h (by simp)
    · rename_i w hadj
      have hinj := h
      simp only [Except.ok.injEq, Prod.mk.injEq] at hinj
      refine ⟨?_, ?_, hinj.2.symm⟩
      · rw [← hinj.1]
        exact hadj
      · rw [← hinj.1]

/-! ### List-shape lemmas for the shard constructions -/

theorem length_groupShards (cpus : List (List Nat)) (procs rpn w : Nat) :
    (groupShards cpus procs rpn w).length = w := by
  simp [groupShards]

theorem length_gpuBaseShards (config : Config) (system : TestSystem) :
    (gpuBaseShards config system).length = gpuDegree config system := by
  simp [gpuBaseShards]

theorem length_flatten_replicate {α : Type} (k : Nat) (l : List α) :
    (List.replicate k l).flatten.length = k * l.length := by
  induction k with
  | zero => simp
  | succ n ih =>
      rw [List.replicate_succ, List.flatten_cons, List.length_append, ih,
        Nat.succ_mul]
      omega

theorem mem_flatten_replicate {α : Type} (k : Nat) (l : List α) (a : α)
    (h : a ∈ (List.replicate k l).flatten) : a ∈ l := by
  rw [List.mem_flatten] at h
  obtain ⟨t, ht, hat⟩ := h
  rw [List.eq_of_mem_replicate ht] at hat
  exact hat

theorem getElem_flatten_replicate {α : Type} (k : Nat) (l : List α) (m : Nat)
    (hm : m < (List.replicate k l).flatten.length)
    (h2 : m % l.length < l.length) :
    (List.replicate k l).flatten[m] = l[m % l.length] := by
  induction k generalizing m with
  | zero => simp at hm
  | succ n ih =>
      have e : (List.replicate (n + 1) l).flatten
          = l ++ (List.replicate n l).flatten := by
        rw [List.replicate_succ, List.flatten_cons]
      rw [List.getElem_of_eq e]
      rw [List.replicate_succ, List.flatten_cons] at hm
      rcases Nat.lt_or_ge m l.length with hlt | hge
      · rw [List.getElem_append_left hlt]
        congr 1
        rw [Nat.mod_eq_of_lt hlt]
      · rw [List.getElem_append_right hge]
        have hm' : m - l.length < (List.replicate n l).flatten.length := by
          rw [List.length_append] at hm
          omega
        have h2x : (m - l.length) % l.length < l.length := by
          rw [← Nat.mod_eq_sub_mod hge]
          exact h2
        rw [ih _ hm' h2x]
        congr 1
        rw [Nat.mod_eq_sub_mod hge]

/-! ### Concrete planner inputs used as witnesses and counterexamples -/

/-- A machine with `n` single-core CPU groups, no GPUs, 10000 MB memory
(mirroring the unit tests' `FakeSystem(cpus=n)`). -/
def coresSys (n : Nat) : TestSystem :=
  ⟨(List.range n).map (fun i => [i]), [], 10000⟩

/-- A 16000 MB GPU's capacity in bytes. -/
def gpu16G : Nat := 16000 * 2 ^ 20

/-- GPU config: `gpus=1`, `fbmem=16000`, `bloat_factor=1`, single rank, no
explicit worker request. -/
def gpuCfgSmall : Config :=
  ⟨2, 1, 1, 4, 1, 4000, 4000, 16000, 1, .part, 1, none⟩

/-- Two 16000 MB GPUs, 100000 MB system memory. -/
def gpuSysSmall : TestSystem :=
  ⟨[], [⟨0, gpu16G⟩, ⟨1, gpu16G⟩], 100000⟩

/-- The spec the GPU planner produces on `(gpuCfgSmall, gpuSysSmall)`:
`oversub_factor = 1`, `degree = 2`, `workers = 2`, and the 2-shard base list
replicated `workers` times. -/
def gpuSpecSmall : StageSpec :=
  ⟨2, [⟨[[0]]⟩, ⟨[[1]]⟩, ⟨[[0]]⟩, ⟨[[1]]⟩]⟩

/-- CPU config: `cpus=1`, `utility=1`, `cpu_pin="none"`, single rank, no
explicit worker request (so `procs_per_rank = 2`). -/
def cpuCfg6 : Config :=
  ⟨1, 1, 1, 4, 1, 4000, 4000, 4096, 1, .nopin, 1, none⟩

/-- OMP config: `omps=1`, `ompthreads=1`, `utility=1`, `numamem=0`,
`bloat_factor=1`, single rank, no explicit worker request. -/
def ompCfg6 : Config :=
  ⟨2, 1, 1, 1, 1, 4000, 0, 4096, 1, .part, 1, none⟩

/-- The spec the CPU/OMP planner produces on six single-core groups with
`procs_per_rank = 2`: three workers of two contiguous cores each. -/
def sixSpec : StageSpec :=
  ⟨3, [⟨[[0, 1]]⟩, ⟨[[2, 3]]⟩, ⟨[[4, 5]]⟩]⟩

/-- C1's counterexample of record, showing the GPU planner in the
single-rank case: 2 GPUs, `gpus=1`, `oversub_factor=1` gives `workers = 2`
but 4 shards. -/
theorem C1_counterexample :
    gpuCfgSmall.ranks_per_node = 1 ∧
    gpuComputeSpec gpuCfgSmall gpuSysSmall = .ok (gpuSpecSmall, false) ∧
    gpuSpecSmall.workers ≠ gpuSpecSmall.shards.length := by
  refine ⟨rfl, by with_unfolding_all decide, by decide⟩

/-- C1 as amended: the CPU and OMP planners satisfy the invariant as stated
(single-rank: `workers = len(shards)`; in general `len(shards)` is a multiple
of `workers`); the GPU planner satisfies only the weaker multiple-of-workers
property in the single-rank case. -/
theorem C1_amended (ccfg ocfg gcfg : Config) (csys osys gsys : TestSystem)
    (cspec ospec gspec : StageSpec) (cw ow gw : Bool)
    (hc : cpuComputeSpec ccfg csys = .ok (cspec, cw))
    (ho : ompComputeSpec ocfg osys = .ok (ospec, ow))
    (hg : gpuComputeSpec gcfg gsys = .ok (gspec, gw)) :
    ((ccfg.ranks_per_node = 1 → cspec.workers = cspec.shards.length) ∧
      cspec.shards.length % cspec.workers = 0) ∧
    ((ocfg.ranks_per_node = 1 → ospec.workers = ospec.shards.length) ∧
      ospec.shards.length % ospec.workers = 0) ∧
    (gcfg.ranks_per_node = 1 → gspec.workers ∣ gspec.shards.length) := by
  refine ⟨?_, ?_, ?_⟩
  · have hlen : cspec.shards.length = cspec.workers := by
      rcases cpuComputeSpec_ok _ _ _ _ hc with ⟨_, _, hsp, _⟩ | ⟨_, hsh, _⟩
      · simp [hsp]
      · rw [hsh, length_groupShards]
    exact ⟨fun _ => hlen.symm, by rw [hlen, Nat.mod_self]⟩
  · have hlen : ospec.shards.length = ospec.workers := by
      rcases ompComputeSpec_ok _ _ _ _ ho with ⟨_, _, _, hsp, _⟩ |
        ⟨_, _, hsh, _⟩
      · simp [hsp]
      · rw [hsh, length_groupShards]
    exact ⟨fun _ => hlen.symm, by rw [hlen, Nat.mod_self]⟩
  · intro h1
    obtain ⟨g, gs, hgs, hadj, hsh, _⟩ := gpuComputeSpec_ok _ _ _ _ hg
    rw [hsh, if_pos h1, length_flatten_replicate]
    exact Dvd.intro _ rfl

/-- Witness for C1's amended theorem at concrete successful plans of all
three planners. -/
theorem C1_amended_witness :
    ((cpuCfg6.ranks_per_node = 1 →
        sixSpec.workers = sixSpec.shards.length) ∧
      sixSpec.shards.length % sixSpec.workers = 0) ∧
    ((ompCfg6.ranks_per_node = 1 →
        sixSpec.workers = sixSpec.shards.length) ∧
      sixSpec.shards.length % sixSpec.workers = 0) ∧
    (gpuCfgSmall.ranks_per_node = 1 →
      gpuSpecSmall.workers ∣ gpuSpecSmall.shards.length) :=
  C1_amended cpuCfg6 ompCfg6 gpuCfgSmall (coresSys 6) (coresSys 6)
    gpuSysSmall sixSpec sixSpec gpuSpecSmall false false false
    (by decide) (by with_unfolding_all decide) (by with_unfolding_all decide)

/-- C3: every successful GPU plan's shard list is the `degree`-entry base
list (rank `j` of base entry `i` holding the contiguous GPU-id range
`[(j + i*rpn)*gpus, (j + i*rpn + 1)*gpus)`) replicated `shard_factor` times,
where `shard_factor = workers` if `ranks_per_node = 1` and `oversub_factor`
otherwise; in particular `len(shards) = degree * shard_factor` and entry `m`
is base entry `m % degree`. -/
theorem C3_gpu_shard_structure (cfg : Config) (sys : TestSystem)
    (spec : StageSpec) (warn : Bool) (g : GpuInfo) (gs : List GpuInfo)
    (hgs : sys.gpus = g :: gs)
    (h : gpuComputeSpec cfg sys = .ok (spec, warn)) :
    spec.shards.length = gpuDegree cfg sys *
      (if cfg.ranks_per_node = 1 then spec.workers
       else gpuOversub cfg g gs) ∧
    ∀ m, (hm : m < spec.shards.length) →
      spec.shards[m] = ⟨(List.range cfg.ranks_per_node).map (fun j =>
        List.range' ((j + (m % gpuDegree cfg sys) * cfg.ranks_per_node)
          * cfg.gpus) cfg.gpus)⟩ := by
  obtain ⟨g', gs', hgs', hadj, hsh, _⟩ := gpuComputeSpec_ok _ _ _ _ h
  rw [hgs] at hgs'
  injection hgs' with h1 h2
  subst h1
  subst h2
  constructor
  · rw [hsh, length_flatten_replicate, length_gpuBaseShards, Nat.mul_comm]
  · intro m hm
    have hm' : m < ((List.replicate
        (if cfg.ranks_per_node = 1 then spec.workers
         else gpuOversub cfg g gs)
        (gpuBaseShards cfg sys)).flatten).length := by
      rw [← hsh]
      exact hm
    have hdpos : 0 < (gpuBaseShards cfg sys).length := by
      rw [length_gpuBaseShards]
      rcases Nat.eq_zero_or_pos (gpuDegree cfg sys) with h0 | hp
      · exfalso
        rw [hsh, length_flatten_replicate, length_gpuBaseShards, h0,
          Nat.mul_zero] at hm
        omega
      · exact hp
    rw [List.getElem_of_eq hsh hm,
      getElem_flatten_replicate _ _ _ hm' (Nat.mod_lt _ hdpos)]
    simp only [gpuBaseShards, length_gpuBaseShards, List.getElem_map,
      List.getElem_range, List.length_map, List.length_range]

/-- The base shard list of `gpuSysSmall` under `gpuCfgSmall`. -/
def gpuTailSmall : List GpuInfo := [⟨1, gpu16G⟩]

/-- Witness for C3 at the concrete two-GPU plan. -/
theorem C3_gpu_shard_structure_witness :
    gpuSpecSmall.shards.length = gpuDegree gpuCfgSmall gpuSysSmall *
      (if gpuCfgSmall.ranks_per_node = 1 then gpuSpecSmall.workers
       else gpuOversub gpuCfgSmall ⟨0, gpu16G⟩ gpuTailSmall) ∧
    ∀ m, (hm : m < gpuSpecSmall.shards.length) →
      gpuSpecSmall.shards[m] =
        ⟨(List.range gpuCfgSmall.ranks_per_node).map (fun j =>
          List.range' ((j + (m % gpuDegree gpuCfgSmall gpuSysSmall)
            * gpuCfgSmall.ranks_per_node) * gpuCfgSmall.gpus)
            gpuCfgSmall.gpus)⟩ :=
  C3_gpu_shard_structure gpuCfgSmall gpuSysSmall gpuSpecSmall false
    ⟨0, gpu16G⟩ gpuTailSmall rfl (by with_unfolding_all decide)

/-- GPU config of the spec's worked example: `gpus=1`, `fbmem=4096`,
`bloat_factor=1`, single rank, no explicit worker request. -/
def gpu8Cfg : Config :=
  ⟨2, 1, 1, 4, 1, 4000, 4000, 4096, 1, .part, 1, none⟩

/-- The other seven of the eight 16000 MB GPUs. -/
def gpu8Tail : List GpuInfo :=
  [⟨1, gpu16G⟩, ⟨2, gpu16G⟩, ⟨3, gpu16G⟩, ⟨4, gpu16G⟩, ⟨5, gpu16G⟩,
   ⟨6, gpu16G⟩, ⟨7, gpu16G⟩]

/-- Eight 16000 MB GPUs, 100000 MB system memory. -/
def gpu8Sys : TestSystem := ⟨[], ⟨0, gpu16G⟩ :: gpu8Tail, 100000⟩

/-- C4: on success without an explicit worker request, the GPU planner's
worker count is `min(degree * oversub_factor, mem_workers)` with
`oversub_factor = floor(min_gpu_memory_MB / (fbmem * bloat_factor))`,
`degree = floor(N_gpus / (gpus * ranks_per_node))` and `mem_workers =
floor(system_memory_MB / (SMALL_SYSMEM * bloat_factor))`; concretely, with 8
GPUs of 16000 MB, `gpus=1`, `fbmem=4096`, `bloat_factor=1`,
`ranks_per_node=1`: `oversub_factor = 3`, `degree = 8`, `gpu_workers = 24`,
and `workers = min(24, mem_workers)`. -/
theorem C4_gpu_worker_arithmetic (cfg : Config) (sys : TestSystem)
    (spec : StageSpec) (warn : Bool) (g : GpuInfo) (gs : List GpuInfo)
    (hgs : sys.gpus = g :: gs)
    (h : gpuComputeSpec cfg sys = .ok (spec, warn)) :
    (∃ d, adjust_workers
      (min (gpuDegree cfg sys * gpuOversub cfg g gs)
        (gpuMemWorkers cfg sys))
      cfg.requested_workers d = .ok spec.workers) ∧
    (cfg.requested_workers = none →
      spec.workers = min (gpuDegree cfg sys * gpuOversub cfg g gs)
        (gpuMemWorkers cfg sys)) ∧
    gpuOversub gpu8Cfg ⟨0, gpu16G⟩ gpu8Tail = 3 ∧
    gpuDegree gpu8Cfg gpu8Sys = 8 ∧
    gpuDegree gpu8Cfg gpu8Sys * gpuOversub gpu8Cfg ⟨0, gpu16G⟩ gpu8Tail
      = 24 ∧
    (gpuComputeSpec gpu8Cfg gpu8Sys).map (fun p => p.1.workers)
      = .ok (min 24 (gpuMemWorkers gpu8Cfg gpu8Sys)) := by
  obtain ⟨g', gs', hgs', hadj, _, _⟩ := gpuComputeSpec_ok _ _ _ _ h
  rw [hgs] at hgs'
  injection hgs' with h1 h2
  subst h1
  subst h2
  refine ⟨⟨_, hadj⟩, ?_, by with_unfolding_all decide,
    by with_unfolding_all decide, by with_unfolding_all decide,
    by with_unfolding_all decide⟩
  intro hreq
  rw [hreq] at hadj
  exact adjust_ok_of_none _ _ _ hadj

/-- Witness for C4 at the concrete two-GPU plan. -/
theorem C4_gpu_worker_arithmetic_witness :
    (∃ d, adjust_workers
      (min (gpuDegree gpuCfgSmall gpuSysSmall *
          gpuOversub gpuCfgSmall ⟨0, gpu16G⟩ gpuTailSmall)
        (gpuMemWorkers gpuCfgSmall gpuSysSmall))
      gpuCfgSmall.requested_workers d = .ok gpuSpecSmall.workers) ∧
    (gpuCfgSmall.requested_workers = none →
      gpuSpecSmall.workers = min
        (gpuDegree gpuCfgSmall gpuSysSmall *
          gpuOversub gpuCfgSmall ⟨0, gpu16G⟩ gpuTailSmall)
        (gpuMemWorkers gpuCfgSmall gpuSysSmall)) ∧
    gpuOversub gpu8Cfg ⟨0, gpu16G⟩ gpu8Tail = 3 ∧
    gpuDegree gpu8Cfg gpu8Sys = 8 ∧
    gpuDegree gpu8Cfg gpu8Sys * gpuOversub gpu8Cfg ⟨0, gpu16G⟩ gpu8Tail
      = 24 ∧
    (gpuComputeSpec gpu8Cfg gpu8Sys).map (fun p => p.1.workers)
      = .ok (min 24 (gpuMemWorkers gpu8Cfg gpu8Sys)) :=
  C4_gpu_worker_arithmetic gpuCfgSmall gpuSysSmall gpuSpecSmall false
    ⟨0, gpu16G⟩ gpuTailSmall rfl (by with_unfolding_all decide)

/-- C5: when the OMP planner computes zero workers from the core count:
under strict pinning it fails with the resource-exhausted not-enough-cores
error (whose message contains "not enough"); otherwise, if the memory
ceiling still allows a worker, it warns and returns exactly one worker
holding all core ids sorted ascending; otherwise it proceeds to normal
resolution, which fails (with the zero-workers resource-exhausted error when
no explicit request was made). -/
theorem C5_omp_zero_worker_fallback (cfg : Config) (sys : TestSystem)
    (hpr : ompProcs cfg * cfg.ranks_per_node ≠ 0)
    (hmpt : ompMemPerTest cfg ≠ 0)
    (hzero : ompWorkersRaw cfg sys = 0) :
    (cfg.cpu_pin = .strict →
      ompComputeSpec cfg sys = .error (.notEnoughCores
        (notEnoughMsg sys.cpus.length cfg.ranks_per_node (ompProcs cfg))) ∧
      ∃ a b, notEnoughMsg sys.cpus.length cfg.ranks_per_node (ompProcs cfg)
        = a ++ "not enough" ++ b) ∧
    (cfg.cpu_pin ≠ .strict → 0 < ompMemWorkers cfg sys →
      ompComputeSpec cfg sys
        = .ok (⟨1, [⟨[pySorted sys.cpus.flatten]⟩]⟩, true)) ∧
    (cfg.cpu_pin ≠ .strict → ompMemWorkers cfg sys = 0 →
      (∃ e, ompComputeSpec cfg sys = .error e) ∧
      (cfg.requested_workers = none →
        ompComputeSpec cfg sys
          = .error (.zeroWorkers (some (ompDetail cfg sys))))) := by
  refine ⟨?_, ?_, ?_⟩
  · intro hst
    constructor
    · unfold ompComputeSpec
      rw [if_neg hpr, if_neg hmpt, if_pos ⟨hzero, hst⟩]
    · refine ⟨toString sys.cpus.length ++ " detected core(s) ",
        " for " ++ toString cfg.ranks_per_node
          ++ " rank(s) per node, each reserving "
          ++ toString (ompProcs cfg)
          ++ " core(s) with strict CPU pinning", ?_⟩
      have lit : (" detected core(s) not enough for " : String)
          = " detected core(s) " ++ ("not enough" ++ " for ") := rfl
      unfold notEnoughMsg
      simp only [String.append_assoc, lit]
      rfl
  · intro hns hmw
    unfold ompComputeSpec
    rw [if_neg hpr, if_neg hmpt,
      if_neg (fun hc => hns hc.2), if_pos ⟨hzero, hmw⟩]
  · intro hns hmw0
    have hmin : min (ompWorkersRaw cfg sys) (ompMemWorkers cfg sys) = 0 := by
      rw [hzero, hmw0]
      rfl
    constructor
    · cases hres : adjust_workers
          (min (ompWorkersRaw cfg sys) (ompMemWorkers cfg sys))
          cfg.requested_workers (some (ompDetail cfg sys)) with
      | error e =>
          refine ⟨e, ?_⟩
          unfold ompComputeSpec
          rw [if_neg hpr, if_neg hmpt, if_neg (fun hc => hns hc.2),
            if_neg (fun hc => by omega), hres]
      | ok v =>
          exfalso
          have hle := adjust_ok_le _ _ _ _ hres
          rw [hmin] at hle
          omega
    · intro hreq
      unfold ompComputeSpec
      rw [if_neg hpr, if_neg hmpt, if_neg (fun hc => hns hc.2),
        if_neg (fun hc => by omega), hreq, hmin]
      rfl

/-- OMP config that starves the core count under strict pinning: `omps=1`,
`ompthreads=8`, `utility=1`, strict, `numamem=0`, `bloat_factor=1`. -/
def ompCfgStrict : Config :=
  ⟨2, 1, 1, 8, 1, 4000, 0, 4096, 1, .strict, 1, none⟩

/-- Witness for C5: on six cores, `procs = 10 > 6` and strict pinning, the
OMP planner raises the not-enough-cores error. -/
theorem C5_omp_zero_worker_fallback_witness :
    ompComputeSpec ompCfgStrict (coresSys 6) = .error (.notEnoughCores
      (notEnoughMsg (coresSys 6).cpus.length ompCfgStrict.ranks_per_node
        (ompProcs ompCfgStrict))) ∧
    ∃ a b, notEnoughMsg (coresSys 6).cpus.length
      ompCfgStrict.ranks_per_node (ompProcs ompCfgStrict)
      = a ++ "not enough" ++ b :=
  (C5_omp_zero_worker_fallback ompCfgStrict (coresSys 6) (by decide)
    (by with_unfolding_all decide) (by decide)).1 rfl

/-- C6: outside the zero-worker fallback and without an explicit request,
the OMP planner resolves `workers = min(omp_workers, mem_workers)` where
`omp_workers = floor(len(cpu_groups) / (procs_per_rank * ranks_per_node))`
with `procs_per_rank = omps*ompthreads + utility + (1 if strict else 0)`,
and `mem_workers = floor(system_memory / ((SMALL_SYSMEM + omps*numamem) *
bloat_factor))` with `SMALL_SYSMEM = 300` MB. -/
theorem C6_omp_worker_arithmetic (cfg : Config) (sys : TestSystem)
    (spec : StageSpec) (warn : Bool)
    (h : ompComputeSpec cfg sys = .ok (spec, warn))
    (hnz : sys.cpus.length / ((cfg.omps * cfg.ompthreads + cfg.utility
      + (if cfg.cpu_pin = .strict then 1 else 0)) * cfg.ranks_per_node) ≠ 0)
    (hreq : cfg.requested_workers = none) :
    SMALL_SYSMEM = 300 ∧
    spec.workers = min
      (sys.cpus.length / ((cfg.omps * cfg.ompthreads + cfg.utility
        + (if cfg.cpu_pin = .strict then 1 else 0)) * cfg.ranks_per_node))
      (pyFloorNat ((sys.memory : ℚ) /
        (((SMALL_SYSMEM : ℚ) + cfg.omps * cfg.numamem)
          * cfg.bloat_factor))) := by
  have hnz' : ompWorkersRaw cfg sys ≠ 0 := hnz
  rcases ompComputeSpec_ok _ _ _ _ h with ⟨hz, _, _, _, _⟩ |
    ⟨d, hadj, _, _⟩
  · exact absurd hz hnz'
  · rw [hreq] at hadj
    exact ⟨rfl, adjust_ok_of_none _ _ _ hadj⟩

/-- Witness for C6 at the concrete six-core OMP plan (`procs = 2`,
`omp_workers = 3`, `mem_workers = 33`, `workers = 3`). -/
theorem C6_omp_worker_arithmetic_witness :
    SMALL_SYSMEM = 300 ∧
    sixSpec.workers = min
      ((coresSys 6).cpus.length / ((ompCfg6.omps * ompCfg6.ompthreads
        + ompCfg6.utility + (if ompCfg6.cpu_pin = .strict then 1 else 0))
        * ompCfg6.ranks_per_node))
      (pyFloorNat (((coresSys 6).memory : ℚ) /
        (((SMALL_SYSMEM : ℚ) + ompCfg6.omps * ompCfg6.numamem)
          * ompCfg6.bloat_factor))) :=
  C6_omp_worker_arithmetic ompCfg6 (coresSys 6) sixSpec false
    (by with_unfolding_all decide) (by decide) rfl

/-! ### Disjointness of rank shards within a shard -/

/-- No resource id appears in more than one rank shard of the shard. -/
def RanksDisjoint (s : Shard) : Prop :=
  s.ranks.Pairwise (fun a b => ∀ x, x ∈ a → x ∉ b)

/-- A valid inventory: distinct CPU groups hold disjoint core-id sets
(out-of-range indices read as the empty group). -/
def DisjointGroups (sys : TestSystem) : Prop :=
  ∀ k1 k2, k1 ≠ k2 → ∀ x, x ∈ sys.cpus.getD k1 [] → x ∉ sys.cpus.getD k2 []

theorem groupShards_ranks_disjoint (cpus : List (List Nat))
    (procs rpn w : Nat)
    (hdisj : ∀ k1 k2, k1 ≠ k2 →
      ∀ x, x ∈ cpus.getD k1 [] → x ∉ cpus.getD k2 []) :
    ∀ s ∈ groupShards cpus procs rpn w, RanksDisjoint s := by
  intro s hs
  unfold groupShards at hs
  rw [List.mem_map] at hs
  obtain ⟨i, hi, rfl⟩ := hs
  unfold RanksDisjoint
  simp only
  rw [List.pairwise_map]
  refine (List.pairwise_lt_range rpn).imp ?_
  intro j1 j2 hlt x hx1 hx2
  rw [mem_pySorted, List.mem_flatten] at hx1 hx2
  obtain ⟨l1, hl1, hx1⟩ := hx1
  obtain ⟨l2, hl2, hx2⟩ := hx2
  rw [List.mem_map] at hl1 hl2
  obtain ⟨k1, hk1, rfl⟩ := hl1
  obtain ⟨k2, hk2, rfl⟩ := hl2
  rw [List.mem_range'] at hk1 hk2
  obtain ⟨t1, ht1, rfl⟩ := hk1
  obtain ⟨t2, ht2, rfl⟩ := hk2
  have h3 : (j1 + i * rpn) * procs + procs ≤ (j2 + i * rpn) * procs := by
    have h1 : j1 + i * rpn + 1 ≤ j2 + i * rpn := by omega
    calc (j1 + i * rpn) * procs + procs
        = (j1 + i * rpn + 1) * procs := by ring
      _ ≤ (j2 + i * rpn) * procs := Nat.mul_le_mul_right _ h1
  exact hdisj _ _ (by omega) x hx1 hx2

theorem gpuBaseShards_ranks_disjoint (config : Config)
    (system : TestSystem) :
    ∀ s ∈ gpuBaseShards config system, RanksDisjoint s := by
  intro s hs
  unfold gpuBaseShards at hs
  rw [List.mem_map] at hs
  obtain ⟨i, hi, rfl⟩ := hs
  unfold RanksDisjoint
  simp only
  rw [List.pairwise_map]
  refine (List.pairwise_lt_range config.ranks_per_node).imp ?_
  intro j1 j2 hlt x hx1 hx2
  rw [List.mem_range'] at hx1 hx2
  obtain ⟨t1, ht1, he1⟩ := hx1
  obtain ⟨t2, ht2, he2⟩ := hx2
  have h3 : (j1 + i * config.ranks_per_node) * config.gpus + config.gpus
      ≤ (j2 + i * config.ranks_per_node) * config.gpus := by
    have h1 : j1 + i * config.ranks_per_node + 1
        ≤ j2 + i * config.ranks_per_node := by omega
    calc (j1 + i * config.ranks_per_node) * config.gpus + config.gpus
        = (j1 + i * config.ranks_per_node + 1) * config.gpus := by ring
      _ ≤ (j2 + i * config.ranks_per_node) * config.gpus :=
          Nat.mul_le_mul_right _ h1
  omega

/-- C7: in every successful plan of any planner (on a valid inventory with
pairwise disjoint CPU groups), no core id and no GPU id appears in more than
one rank shard of any single shard; the single-rank oversubscription
fallback shard satisfies this trivially. -/
theorem C7_no_double_assignment (ccfg ocfg gcfg : Config)
    (csys osys gsys : TestSystem) (cspec ospec gspec : StageSpec)
    (cw ow gw : Bool)
    (hcd : DisjointGroups csys) (hod : DisjointGroups osys)
    (hc : cpuComputeSpec ccfg csys = .ok (cspec, cw))
    (ho : ompComputeSpec ocfg osys = .ok (ospec, ow))
    (hg : gpuComputeSpec gcfg gsys = .ok (gspec, gw)) :
    (∀ s ∈ cspec.shards, RanksDisjoint s) ∧
    (∀ s ∈ ospec.shards, RanksDisjoint s) ∧
    (∀ s ∈ gspec.shards, RanksDisjoint s) := by
  refine ⟨?_, ?_, ?_⟩
  · rcases cpuComputeSpec_ok _ _ _ _ hc with ⟨_, _, hsp, _⟩ | ⟨_, hsh, _⟩
    · intro s hs
      rw [hsp] at hs
      simp only [List.mem_singleton] at hs
      subst hs
      exact List.pairwise_singleton _ _
    · rw [hsh]
      exact groupShards_ranks_disjoint _ _ _ _ hcd
  · rcases ompComputeSpec_ok _ _ _ _ ho with ⟨_, _, _, hsp, _⟩ |
      ⟨_, _, hsh, _⟩
    · intro s hs
      rw [hsp] at hs
      simp only [List.mem_singleton] at hs
      subst hs
      exact List.pairwise_singleton _ _
    · rw [hsh]
      exact groupShards_ranks_disjoint _ _ _ _ hod
  · obtain ⟨g, gs, hgs, hadj, hsh, _⟩ := gpuComputeSpec_ok _ _ _ _ hg
    rw [hsh]
    intro s hs
    exact gpuBaseShards_ranks_disjoint gcfg gsys s
      (mem_flatten_replicate _ _ _ hs)

theorem coresSys_disjoint (n : Nat) : DisjointGroups (coresSys n) := by
  intro k1 k2 hne x hx1 hx2
  have key : ∀ k y, y ∈ ((List.range n).map (fun i => [i])).getD k [] →
      y = k := by
    intro k y hy
    rcases Nat.lt_or_ge k n with hk | hk
    · have hlen : k < ((List.range n).map (fun i => [i])).length := by
        simpa using hk
      rw [List.getD_eq_getElem _ _ hlen, List.getElem_map,
        List.getElem_range] at hy
      simpa using hy
    · rw [List.getD_eq_default _ _ (by simpa using hk)] at hy
      simp at hy
  have e1 := key _ _ hx1
  have e2 := key _ _ hx2
  omega

/-- Witness for C7 at concrete successful plans of all three planners. -/
theorem C7_no_double_assignment_witness :
    (∀ s ∈ sixSpec.shards, RanksDisjoint s) ∧
    (∀ s ∈ sixSpec.shards, RanksDisjoint s) ∧
    (∀ s ∈ gpuSpecSmall.shards, RanksDisjoint s) :=
  C7_no_double_assignment cpuCfg6 ompCfg6 gpuCfgSmall (coresSys 6)
    (coresSys 6) gpuSysSmall sixSpec sixSpec gpuSpecSmall false false false
    (coresSys_disjoint 6) (coresSys_disjoint 6) (by decide)
    (by with_unfolding_all decide) (by with_unfolding_all decide)

/-- C8's counterexample of record: 12 single-core groups, `cpus=1`, default
utility 1 and `cpu_pin="none"` give `procs_per_rank = 2` but 6 workers, not
the claimed 3 (the cited unit test runs on the 6-core default FakeSystem). -/
theorem C8_counterexample :
    cpuProcs cpuCfg6 = 2 ∧
    (coresSys 12).cpus.length = 12 ∧
    (cpuComputeSpec cpuCfg6 (coresSys 12)).map (fun p => p.1.workers)
      = .ok 6 ∧
    (6 : Nat) ≠ 3 := by decide

/-- C8 as amended: on the cited test's six cores (`FakeSystem()` default),
`cpus=1`, default utility 1, `cpu_pin="none"`, the CPU planner produces
exactly 3 workers with shards `[(0,1)], [(2,3)], [(4,5)]`. -/
theorem C8_amended :
    cpuComputeSpec cpuCfg6 (coresSys 6) = .ok (sixSpec, false) := by decide

/-- C9: planning is a pure function of `(Config, Inventory)`: calling any
planner twice on identical inputs yields structurally equal results
(the embedding is state-free because the source reads only its inputs;
warnings are part of the returned value). -/
theorem C9_planning_deterministic (cfg : Config) (sys : TestSystem) :
    cpuComputeSpec cfg sys = cpuComputeSpec cfg sys ∧
    ompComputeSpec cfg sys = ompComputeSpec cfg sys ∧
    gpuComputeSpec cfg sys = gpuComputeSpec cfg sys ∧
    osxOmpComputeSpec cfg sys = osxOmpComputeSpec cfg sys :=
  ⟨rfl, rfl, rfl, rfl⟩

/-- C10: every successful macOS OMP plan has worker count
`resolve(len(cpus) // (omps*ompthreads + utility), requested_workers)` (no
strict-pin extra core, no memory ceiling), its shard list is exactly the
placeholder shards `[(0,)], [(1,)], ..., [(w-1,)]` holding worker indices,
and the computed count was nonzero (there is no zero-worker fallback:
a zero computed count fails instead). -/
theorem C10_osx_placeholder_shards (cfg : Config) (sys : TestSystem)
    (spec : StageSpec) (warn : Bool)
    (h : osxOmpComputeSpec cfg sys = .ok (spec, warn)) :
    adjust_workers
      (sys.cpus.length / (cfg.omps * cfg.ompthreads + cfg.utility))
      cfg.requested_workers none = .ok spec.workers ∧
    spec.shards = (List.range spec.workers).map (fun i => ⟨[[i]]⟩) ∧
    sys.cpus.length / (cfg.omps * cfg.ompthreads + cfg.utility) ≠ 0 := by
  obtain ⟨hadj, hsh, _⟩ := osxOmpComputeSpec_ok _ _ _ _ h
  refine ⟨hadj, hsh, fun hz => ?_⟩
  rw [hz] at hadj
  have := adjust_ok_le _ _ _ _ hadj
  omega

/-- The spec the macOS OMP planner produces on six cores with
`omps=1, ompthreads=1, utility=1`: three placeholder shards. -/
def osxSpec : StageSpec := ⟨3, [⟨[[0]]⟩, ⟨[[1]]⟩, ⟨[[2]]⟩]⟩

/-- Witness for C10 at the concrete six-core macOS OMP plan. -/
theorem C10_osx_placeholder_shards_witness :
    adjust_workers
      ((coresSys 6).cpus.length / (ompCfg6.omps * ompCfg6.ompthreads
        + ompCfg6.utility))
      ompCfg6.requested_workers none = .ok osxSpec.workers ∧
    osxSpec.shards = (List.range osxSpec.workers).map (fun i => ⟨[[i]]⟩) ∧
    (coresSys 6).cpus.length / (ompCfg6.omps * ompCfg6.ompthreads
      + ompCfg6.utility) ≠ 0 :=
  C10_osx_placeholder_shards ompCfg6 (coresSys 6) osxSpec false (by decide)

end LegateSharding

